import Mathlib

/-!
Shallow embedding of the RLE core engine, `lab/monitoring/rle_core.py`,
class `RLECore`.  Python floats are modelled as `ℝ`, Python ints as
`ℤ`/`ℕ`, `None` as `Option`.  Each definition's doc comment names the
Python function or method it embeds.  Python's `x ** 0.5` and
`x ** (1/3)` are modelled as `Real.sqrt` and real `rpow`; `sorted(...)`
as an insertion sort (only the resulting order is ever observed).
-/

namespace RLE

open scoped Classical

noncomputable section

/-- Python `data[-1-k]`: the k-th element counted from the end (k = 0 is the last). -/
def idxLast (l : List ℝ) (k : ℕ) : ℝ := l.getD (l.length - 1 - k) 0

/-- Python slice `data[-n:]` (for `n = 0` the slice is the whole list). -/
def sliceLast (n : ℕ) (l : List ℝ) : List ℝ :=
  if n = 0 then l else l.drop (l.length - n)

/-- Python `int(x)` on a float: truncation toward zero. -/
def pyInt (x : ℝ) : ℤ := if 0 ≤ x then ⌊x⌋ else ⌈x⌉

/-- Python `round(x)` on a float: round half to even (banker's rounding). -/
def pyRound (x : ℝ) : ℤ :=
  if Int.fract x < 1/2 then ⌊x⌋
  else if Int.fract x > 1/2 then ⌊x⌋ + 1
  else if Even ⌊x⌋ then ⌊x⌋ else ⌊x⌋ + 1

/-- Python `n_smooth if n_smooth else default`: `None` and `0` are falsy. -/
def pyOrN (o : Option ℕ) (d : ℕ) : ℕ :=
  match o with
  | some n => if n ≠ 0 then n else d
  | none => d

/-- Insertion of one element into a sorted list (helper for `sortList`). -/
def insertSorted (x : ℝ) : List ℝ → List ℝ
  | [] => [x]
  | y :: ys => if x ≤ y then x :: y :: ys else y :: insertSorted x ys

/-- Python `sorted(l)` for a list of floats. -/
def sortList (l : List ℝ) : List ℝ := l.foldr insertSorted []

/-- Ring-buffer capacity `RLECore._rb_len` (1024 in `__init__`). -/
def rbLen : ℕ := 1024

/-- Ring-buffer push: `buf.append(x)` followed by `if len(buf) > self._rb_len: buf.pop(0)`. -/
def pushCap (buf : List ℝ) (x : ℝ) : List ℝ :=
  let b := buf ++ [x]
  if rbLen < b.length then b.tail else b

/-- The attribute values stored by `RLECore.__init__` (configuration surface). -/
structure Config where
  rated_power_w : ℝ := 100
  temp_limit_c : ℝ := 85
  max_t_sustain_s : ℝ := 600
  smooth_n : ℕ := 5
  rolling_decay : ℝ := 0.998
  drop_frac : ℝ := 0.65
  hysteresis_s : ℤ := 7
  util_gate_pct : ℝ := 60
  a_load_gate : ℝ := 0.75
  enable_micro_scale : Bool := false
  sensor_temp_lsb_c : ℝ := 0.1
  low_power_knee_w : ℝ := 3
  enable_theta_clock : Bool := true
  theta_update_sec : ℝ := 60
  theta_min_s : ℝ := 5
  theta_max_s : ℝ := 600
  use_theta_windows : Bool := false
  stability_window_theta : ℝ := 5
  smooth_window_theta : Option ℝ := none
  hysteresis_theta : Option ℝ := none

/-- The normalization `RLECore.__init__` applies to its raw constructor
arguments: `smooth_n = max(1, int(smooth_n))`, `theta_update_sec =
max(5.0, ...)`, `theta_min_s = max(1e-3, ...)`,
`theta_max_s = max(theta_min_s, ...)`. -/
def mkConfig (p : Config) : Config :=
  { p with
    smooth_n := max 1 p.smooth_n,
    theta_update_sec := max 5 p.theta_update_sec,
    theta_min_s := max 1e-3 p.theta_min_s,
    theta_max_s := max (max 1e-3 p.theta_min_s) p.theta_max_s }

/-- The default configuration (all `__init__` keyword defaults). -/
def defaultConfig : Config := {}

/-- The mutable per-instance state of `RLECore`. -/
structure State where
  util_hist : List ℝ
  temp_hist : List ℝ
  rle_hist : List ℝ
  rle_hist_ms : List ℝ
  rle_hist_uni : List ℝ
  rolling_peak : ℝ
  below_ctr : ℕ
  t0_s : ℝ
  theta_index : ℝ
  theta_c : ℝ
  since_theta_update_s : ℝ
  buf_rle_sm : List ℝ
  buf_temp : List ℝ
  buf_dt : List ℝ

/-- The state set up by `RLECore.__init__` (empty histories, `_t0_s = 60.0`). -/
def initState : State :=
  { util_hist := [], temp_hist := [], rle_hist := [], rle_hist_ms := [],
    rle_hist_uni := [], rolling_peak := 0, below_ctr := 0, t0_s := 60,
    theta_index := 0, theta_c := 0, since_theta_update_s := 0,
    buf_rle_sm := [], buf_temp := [], buf_dt := [] }

/-- One input sample fed to `compute_rle`. -/
structure Sample where
  util_pct : ℝ
  temp_c : Option ℝ
  power_w : Option ℝ
  dt_s : ℝ

/-- The per-sample result record (dataclass `RLEResult`). -/
structure Result where
  rle_raw : ℝ
  rle_smoothed : ℝ
  e_th : ℝ
  e_pw : ℝ
  rle_norm : ℝ
  stability : ℝ
  a_load : ℝ
  t_sustain_s : ℝ
  rolling_peak : ℝ
  collapse : ℕ
  alerts : String
  F_mu : ℝ
  F_q : ℝ
  F_s : ℝ
  F_p : ℝ
  rle_raw_ms : ℝ
  rle_smoothed_ms : ℝ
  rle_norm_ms : ℝ
  rle_raw_uni : ℝ
  rle_smoothed_uni : ℝ
  rle_norm_uni : ℝ
  T0_s : ℝ
  theta_index : ℝ
  T_sustain_hat : ℝ
  theta_gap : ℕ
  Gamma : ℝ
  log_Gamma : ℝ

/-- `RLECore._mean_dt`. -/
def meanDt (buf_dt : List ℝ) : ℝ :=
  if buf_dt = [] then 1 else buf_dt.sum / buf_dt.length

/-- `RLECore._theta_window_to_n`. -/
def thetaWindowToN (cfg : Config) (st : State) (theta_window : ℝ) : ℕ :=
  let dt_mean := meanDt st.buf_dt
  let dtheta_mean := dt_mean / max st.t0_s 1e-6
  let n := max 3 (pyRound (theta_window / max dtheta_mean 1e-6))
  let samples_in_update := pyRound (cfg.theta_update_sec / max dt_mean 1e-6)
  let cap := max 12 (4 * samples_in_update)
  (min n cap).toNat

/-- `RLECore._rolling_mean`. -/
def rollingMean (data : List ℝ) (n : ℕ) : ℝ :=
  if data = [] then 0
  else if data.length ≤ n then data.sum / data.length
  else (sliceLast n data).sum / n

/-- `statistics.pstdev`: population standard deviation. -/
def pstdev (l : List ℝ) : ℝ :=
  let m := l.sum / l.length
  Real.sqrt ((l.map fun x => (x - m) ^ 2).sum / l.length)

/-- `RLECore._rolling_stdev`. -/
def rollingStdev (data : List ℝ) (n : ℕ) : ℝ :=
  if data.length < 2 then 0
  else pstdev (if n ≤ data.length then sliceLast n data else data)

/-- `RLECore.compute_t_sustain` (static method). -/
def compute_t_sustain (temp_limit_c : ℝ) (temp_hist : List ℝ) (dt_s : ℝ) (max_t : ℝ) : ℝ :=
  if temp_hist.length < 2 then max_t
  else
    let dT := idxLast temp_hist 0 - idxLast temp_hist 1
    let dTdt := max (dT / max dt_s 1e-3) 1e-3
    let t_sustain := (temp_limit_c - idxLast temp_hist 0) / dTdt
    max (min t_sustain max_t) 1

/-- The components dict returned by `RLECore.compute_components`. -/
structure Components where
  eta : ℝ
  stability : ℝ
  a_load : ℝ
  t_sustain : ℝ

/-- `RLECore.compute_components`: appends to the utilization/temperature
histories and derives (η, σ, α, τ). -/
def compute_components (cfg : Config) (st : State) (util_pct : ℝ)
    (temp_c : Option ℝ) (power_w : Option ℝ) (dt_s : ℝ) : Components × State :=
  let util_hist := st.util_hist ++ [max 0 (min 100 util_pct)]
  let temp_hist :=
    match temp_c with
    | some t => st.temp_hist ++ [t]
    | none => st.temp_hist
  let eta := if util_hist ≠ [] then idxLast util_hist 0 / 100 else 0
  let n_stab :=
    if cfg.enable_theta_clock ∧ cfg.use_theta_windows ∧ 0 < cfg.stability_window_theta
    then thetaWindowToN cfg st cfg.stability_window_theta
    else 5
  let stdev := rollingStdev util_hist n_stab
  let stability := 1 / (1 + stdev)
  let p :=
    match power_w with
    | some pw => if 0 < pw then pw else cfg.rated_power_w * eta
    | none => cfg.rated_power_w * eta
  let a_load := p / max cfg.rated_power_w 1e-6
  let t_sustain := compute_t_sustain cfg.temp_limit_c temp_hist dt_s cfg.max_t_sustain_s
  (⟨eta, stability, a_load, t_sustain⟩,
   { st with util_hist := util_hist, temp_hist := temp_hist })

/-- `RLECore._smooth_rle`: appends the raw score and returns the rolling mean. -/
def smoothRLE (cfg : Config) (rle_hist : List ℝ) (rle_raw : ℝ)
    (override_n : Option ℕ) : ℝ × List ℝ :=
  let hist := rle_hist ++ [rle_raw]
  let n :=
    match override_n with
    | some m => if 0 < m then m else cfg.smooth_n
    | none => cfg.smooth_n
  (rollingMean hist n, hist)

/-- `_harmonic_mean` inside `RLECore._theta_update_if_needed` (Python
truthiness: `None` and `0.0` are falsy). -/
def harmonicMean (a b : Option ℝ) : Option ℝ :=
  match a, b with
  | some x, some y =>
      if x ≠ 0 ∧ y ≠ 0 ∧ 0 < x ∧ 0 < y then some (2 * x * y / (x + y))
      else if x ≠ 0 then some x else some y
  | some x, none => if x ≠ 0 then some x else none
  | none, b => b

/-- The re-estimation body of `RLECore._theta_update_if_needed` (the part
after the cadence check): computes the new `_t0_s` from the ring buffers,
with clamping, EMA smoothing and the ±10% rate limit. -/
def thetaReestimate (cfg : Config) (st : State) : ℝ :=
  let dt_mean := st.buf_dt.sum / st.buf_dt.length
  let dt_win_s := dt_mean * (min st.buf_dt.length 256 : ℕ)
  let tau_th_est : Option ℝ :=
    if 8 ≤ st.buf_temp.length then
      let window := sliceLast (min st.buf_temp.length 256) st.buf_temp
      let derivs := (List.range (window.length - 1)).map fun i =>
        max ((window.getD (i + 1) 0 - window.getD i 0) / max dt_mean 1e-6) 0
      let avg_dTdt := derivs.sum / (max derivs.length 1 : ℕ)
      if 1e-6 < avg_dTdt then
        some (min (max (10 / avg_dTdt) cfg.theta_min_s) cfg.theta_max_s)
      else none
    else none
  let tau_sus_est : Option ℝ := none
  let tau_eff := harmonicMean tau_th_est tau_sus_est
  let T_peak0 : Option ℝ :=
    if 32 ≤ st.buf_rle_sm.length then
      let series := sliceLast (min st.buf_rle_sm.length 512) st.buf_rle_sm
      let n := series.length
      let mean := series.sum / n
      let var := (series.map fun x => (x - mean) * (x - mean)).sum / (max n 1 : ℕ)
      if 0 < var then
        let min_lag_sec0 := 2 * dt_win_s
        let min_lag_sec :=
          match tau_th_est with
          | some t => if t ≠ 0 then max min_lag_sec0 (1.5 * t) else min_lag_sec0
          | none => min_lag_sec0
        let min_lag := max 1 (pyInt (min_lag_sec / max dt_mean 1e-6))
        let max_k := min (n / 2) 256
        let best := ((List.range max_k).drop min_lag.toNat).foldl
          (fun acc k =>
            let num := ((List.range n).drop k).foldl
              (fun s i => s + (series.getD i 0 - mean) * (series.getD (i - k) 0 - mean)) 0
            let den := max (((List.range n).map fun i =>
              (series.getD i 0 - mean) * (series.getD i 0 - mean)).sum) 1e-12
            let r := num / den
            if acc.2 < r then (some k, r) else acc)
          ((none : Option ℕ), (0 : ℝ))
        match best.1 with
        | some k => if 0.3 ≤ best.2 then some (k * dt_mean) else none
        | none => none
      else none
    else none
  let T_peak : Option ℝ :=
    match T_peak0 with
    | none => tau_eff
    | some v => some v
  let T0_candidate : Option ℝ :=
    match tau_eff with
    | none => T_peak
    | some te =>
        match T_peak with
        | some tp => some (Real.sqrt (tp * te))
        | none => some te
  let T0_cand := T0_candidate.getD st.t0_s
  let cand := min (max T0_cand cfg.theta_min_s) cfg.theta_max_s
  let ema := (1 - 0.2) * st.t0_s + 0.2 * cand
  min (max ema (st.t0_s * 0.90)) (st.t0_s * 1.10)

/-- `RLECore._theta_update_if_needed`: maintains the capped ring buffers
and, every `theta_update_sec` seconds of accumulated time, re-estimates
`_t0_s`. -/
def thetaUpdateIfNeeded (cfg : Config) (st : State) (rle_sm : ℝ)
    (temp_c : Option ℝ) (dt_s : ℝ) : State :=
  if cfg.enable_theta_clock then
    let st1 :=
      { st with
        buf_rle_sm := pushCap st.buf_rle_sm rle_sm,
        buf_temp :=
          match temp_c with
          | some t => pushCap st.buf_temp t
          | none => st.buf_temp,
        buf_dt := pushCap st.buf_dt dt_s,
        since_theta_update_s := st.since_theta_update_s + dt_s }
    if st1.since_theta_update_s < cfg.theta_update_sec then st1
    else
      let st2 := { st1 with since_theta_update_s := 0 }
      if st2.buf_dt = [] then st2
      else { st2 with t0_s := thetaReestimate cfg st2 }
  else
    { st with buf_dt := pushCap st.buf_dt dt_s }

/-- The six-tuple returned by `RLECore._compute_micro_scale_factor`. -/
structure MSF where
  F_mu : ℝ
  F_q : ℝ
  F_s : ℝ
  F_p : ℝ
  Gamma : ℝ
  log_Gamma : ℝ

/-- `RLECore._compute_micro_scale_factor`. -/
def computeMicroScaleFactor (cfg : Config) (st : State) (power_w : Option ℝ)
    (temp_c : Option ℝ) (dt_s : ℝ) (dtheta : ℝ) (T0_s : ℝ) : MSF :=
  if cfg.enable_micro_scale then
    let k_B : ℝ := 1.380649e-23
    let T_c :=
      match temp_c with
      | some t => t
      | none => if st.temp_hist ≠ [] then idxLast st.temp_hist 0 else 25
    let T_K := max (T_c + 273.15) 273.15
    let P := max ((power_w.getD 0)) 1e-6
    let _dt := max dt_s 1e-3
    let quantum_scale_J := k_B * T_K
    let Gamma := P * max T0_s 1e-9 / max quantum_scale_J 1e-30
    let N_q := Gamma * max dtheta 0
    let F_q := 1 - Real.exp (-min N_q 50)
    let sigma_T := if 2 ≤ st.temp_hist.length then rollingStdev st.temp_hist 5 else 1e-6
    let F_s := 1 / (1 + (cfg.sensor_temp_lsb_c / max sigma_T 1e-6) ^ 2)
    let F_p := P / (P + cfg.low_power_knee_w)
    let F_mu0 := (F_q * F_s * F_p) ^ ((1 : ℝ) / 3)
    let F_mu := max 1e-9 (min 1 F_mu0)
    let log_Gamma := if 0 < Gamma then Real.log (max Gamma 1e-30) else -1e9
    ⟨F_mu, F_q, F_s, F_p, Gamma, log_Gamma⟩
  else ⟨1, 1, 1, 1, 0, 0⟩

/-- `RLECore._detect_collapse`: warm-up phase, decaying rolling peak,
load/heating gate, hysteresis counter, evidence requirement. -/
def detectCollapse (cfg : Config) (st : State) (rle_sm : ℝ) (util_pct : ℝ)
    (a_load : ℝ) (temp_c : Option ℝ) (t_sustain : ℝ) : ℕ × State :=
  if st.rle_hist.length < max cfg.smooth_n 5 then
    (0, { st with rolling_peak := 0, below_ctr := 0 })
  else
    let peak := max rle_sm (st.rolling_peak * cfg.rolling_decay)
    let under_load := cfg.util_gate_pct < util_pct ∨ cfg.a_load_gate < a_load
    let heating :=
      2 ≤ st.temp_hist.length ∧ temp_c ≠ none ∧
        0.05 < idxLast st.temp_hist 0 - idxLast st.temp_hist 1
    let gate := under_load ∧ heating
    let drop := rle_sm < cfg.drop_frac * max peak 1e-6
    let ctr := if gate ∧ drop then st.below_ctr + 1 else 0
    let hysteresis_samples : ℤ :=
      if cfg.enable_theta_clock ∧ cfg.use_theta_windows ∧
          (match cfg.hysteresis_theta with | some h => h ≠ 0 ∧ 0 < h | none => False)
      then max 1 (thetaWindowToN cfg st (cfg.hysteresis_theta.getD 0) : ℤ)
      else cfg.hysteresis_s
    let collapsed_flag := hysteresis_samples ≤ (ctr : ℤ)
    let thermal_evidence := t_sustain < 60 ∨
      (match temp_c with | some t => cfg.temp_limit_c - 5 < t | none => False)
    let power_evidence := 0.95 < a_load
    ((if collapsed_flag ∧ (thermal_evidence ∨ power_evidence) then 1 else 0),
     { st with rolling_peak := peak, below_ctr := ctr })

/-- The piecewise-linear expected-score curve inside `RLECore.normalize_rle`. -/
def normExpected (device_type : String) (util_pct : ℝ) : ℝ :=
  let baseline : ℝ := if device_type = "cpu" then 0.3 else 0.1
  let optimal : ℝ := if device_type = "cpu" then 5.0 else 3.0
  let peak_load : ℝ := if device_type = "cpu" then 67.0 else 60.0
  let u := max 0 (min 100 util_pct)
  if u ≤ peak_load then baseline + (optimal - baseline) * (u / peak_load)
  else optimal - (optimal - baseline * 0.5) * ((u - peak_load) / (100 - peak_load))

/-- `RLECore.normalize_rle` (static method; `device_type` defaults to `"cpu"`). -/
def normalize_rle (rle : ℝ) (util_pct : ℝ) (device_type : String := "cpu") : ℝ :=
  max 0 (min 1 (rle / max (normExpected device_type util_pct) 1e-6))

/-- `_w_from_fmu` inside `RLECore.compute_rle`: blend weight ramp. -/
def wFromFmu (f : ℝ) : ℝ :=
  if 0.98 ≤ f then 0
  else if f ≤ 0.90 then 1
  else max 0 (min 1 ((0.98 - f) / (0.98 - 0.90)))

/-- `RLECore.compute_rle`: the full per-sample pipeline, returning the
result record and the updated engine state. -/
def computeRLE (cfg : Config) (st0 : State) (util_pct : ℝ)
    (temp_c : Option ℝ) (power_w : Option ℝ) (dt_s : ℝ) : Result × State :=
  let cs := compute_components cfg st0 util_pct temp_c power_w dt_s
  let c := cs.1
  let st1 := cs.2
  let denom := max c.a_load 1e-6 * (1 + 1 / max c.t_sustain 1e-6)
  let rle_raw_core := c.eta * c.stability / denom
  let n_smooth : Option ℕ :=
    if cfg.enable_theta_clock ∧ cfg.use_theta_windows ∧
        (match cfg.smooth_window_theta with | some w => w ≠ 0 ∧ 0 < w | none => False)
    then some (thetaWindowToN cfg st1 (cfg.smooth_window_theta.getD 0))
    else none
  let sm := smoothRLE cfg st1.rle_hist rle_raw_core n_smooth
  let rle_smooth_core := sm.1
  let st2 := { st1 with rle_hist := sm.2 }
  let st3 := thetaUpdateIfNeeded cfg st2 rle_smooth_core temp_c dt_s
  let theta_gap : ℕ :=
    if cfg.enable_theta_clock then
      if st3.buf_dt ≠ [] then
        let sdt := sortList st3.buf_dt
        let med_dt := sdt.getD (sdt.length / 2) 0
        if 3 * max med_dt 1e-6 < dt_s then 1 else 0
      else 0
    else 0
  let dtheta : ℝ := if cfg.enable_theta_clock then dt_s / max st3.t0_s 1e-6 else 0
  let st4 :=
    if cfg.enable_theta_clock then
      let y := dtheta - st3.theta_c
      let t := st3.theta_index + y
      { st3 with theta_c := t - st3.theta_index - y, theta_index := t }
    else st3
  let msf := computeMicroScaleFactor cfg st4 power_w temp_c dt_s dtheta st4.t0_s
  let rle_raw_ms := rle_raw_core * msf.F_mu
  let rle_hist_ms' := st4.rle_hist_ms ++ [rle_raw_ms]
  let rle_smooth_ms := rollingMean rle_hist_ms' (pyOrN n_smooth cfg.smooth_n)
  let w := wFromFmu msf.F_mu
  let rle_raw_uni := rle_raw_core * (1 - w) + rle_raw_ms * w
  let rle_hist_uni' := st4.rle_hist_uni ++ [rle_raw_uni]
  let rle_smooth_uni := rollingMean rle_hist_uni' (pyOrN n_smooth cfg.smooth_n)
  let e_th := c.stability / (1 + 1 / max c.t_sustain 1e-6)
  let e_pw := c.eta / max c.a_load 1e-6
  let rle_norm_core := normalize_rle rle_smooth_core util_pct
  let rle_norm_ms := normalize_rle rle_smooth_ms util_pct
  let rle_norm_uni := normalize_rle rle_smooth_uni util_pct
  let st5 := { st4 with rle_hist_ms := rle_hist_ms', rle_hist_uni := rle_hist_uni' }
  let dc := detectCollapse cfg st5 rle_smooth_core util_pct c.a_load temp_c c.t_sustain
  let collapsed := dc.1
  let st6 := dc.2
  let T0_s_out := if cfg.enable_theta_clock then st6.t0_s else 0
  let T_sustain_hat :=
    if cfg.enable_theta_clock ∧ 0 < T0_s_out then c.t_sustain / max T0_s_out 1e-6 else 0
  ({ rle_raw := rle_raw_core,
     rle_smoothed := rle_smooth_core,
     e_th := e_th,
     e_pw := e_pw,
     rle_norm := rle_norm_core,
     stability := c.stability,
     a_load := c.a_load,
     t_sustain_s := c.t_sustain,
     rolling_peak := st6.rolling_peak,
     collapse := collapsed,
     alerts := "",
     F_mu := msf.F_mu,
     F_q := msf.F_q,
     F_s := msf.F_s,
     F_p := msf.F_p,
     rle_raw_ms := rle_raw_ms,
     rle_smoothed_ms := rle_smooth_ms,
     rle_norm_ms := rle_norm_ms,
     rle_raw_uni := rle_raw_uni,
     rle_smoothed_uni := rle_smooth_uni,
     rle_norm_uni := rle_norm_uni,
     T0_s := T0_s_out,
     theta_index := st6.theta_index,
     T_sustain_hat := T_sustain_hat,
     theta_gap := theta_gap,
     Gamma := msf.Gamma,
     log_Gamma := msf.log_Gamma }, st6)

/-- One `compute_rle` call on a `Sample`. -/
def step (cfg : Config) (st : State) (s : Sample) : Result × State :=
  computeRLE cfg st s.util_pct s.temp_c s.power_w s.dt_s

/-- The sequence of result records produced by feeding a sample list. -/
def runOutputs (cfg : Config) (st : State) : List Sample → List Result
  | [] => []
  | s :: rest => (step cfg st s).1 :: runOutputs cfg (step cfg st s).2 rest

/-- The engine state after feeding a sample list. -/
def runState (cfg : Config) (st : State) : List Sample → State
  | [] => st
  | s :: rest => runState cfg (step cfg st s).2 rest

/-- The dataclass `ControlDecision`. -/
structure ControlDecision where
  state : String
  cpu_freq_limit_ghz : Option ℝ := none
  gpu_freq_limit_ghz : Option ℝ := none
  fan_speed_pct : Option ℤ := none
  power_limit_pct : Option ℤ := none
  workload_reduction_pct : Option ℤ := none

/-- `RLECore.control_decision`: advisory mapping from current/predicted
score (and optional thermal headroom) to a discrete state. -/
def control_decision (rle_current : ℝ) (rle_predicted : Option ℝ := none)
    (thermal_headroom_c : Option ℝ := none) : ControlDecision :=
  let pred := rle_predicted.getD rle_current
  let headroom_bonus : ℤ :=
    match thermal_headroom_c with
    | some h => if 5 < h then -10 else 0
    | none => 0
  if rle_current < 0.2 ∨ pred < 0.1 then
    ⟨"emergency", some 0.8, some 0.2, some (max 0 (100 + headroom_bonus)), some 50, some 50⟩
  else if rle_current < 0.4 ∨ pred < 0.3 then
    ⟨"aggressive", some 1.2, some 0.5, some (max 0 (80 + headroom_bonus)), some 70, some 25⟩
  else if rle_current < 0.6 ∨ pred < 0.5 then
    ⟨"moderate", some 2.5, some 0.9, some (max 0 (60 + headroom_bonus)), some 85, some 10⟩
  else ⟨"maintain", none, none, none, none, none⟩

/-- Pointwise predicate over a list (used to state per-sample properties
without a membership hypothesis). -/
def ListAll (P : α → Prop) : List α → Prop
  | [] => True
  | x :: xs => P x ∧ ListAll P xs

/-- The load factor α as `compute_components` derives it from one sample
(it depends only on the configuration and the sample, not on history). -/
def aLoadOf (cfg : Config) (util_pct : ℝ) (power_w : Option ℝ) : ℝ :=
  let eta := max 0 (min 100 util_pct) / 100
  let p :=
    match power_w with
    | some pw => if 0 < pw then pw else cfg.rated_power_w * eta
    | none => cfg.rated_power_w * eta
  p / max cfg.rated_power_w 1e-6

section StructuralLemmas

lemma pushCap_length_le (b : List ℝ) (x : ℝ) :
    (pushCap b x).length ≤ max rbLen b.length := by
  simp only [pushCap]
  split
  · rename_i h
    simp only [List.length_tail, List.length_append, List.length_singleton]
    omega
  · rename_i h
    simp only [List.length_append, List.length_singleton] at h ⊢
    omega

lemma pushCap_at_cap (b : List ℝ) (x : ℝ) (h : b.length = rbLen) :
    pushCap b x = b.tail ++ [x] := by
  simp only [pushCap]
  cases b with
  | nil => simp [rbLen] at h
  | cons a as =>
    rw [if_pos]
    · rfl
    · simp only [List.length_append, List.length_cons, List.length_singleton]
      simp only [List.length_cons] at h
      omega

/-- `compute_components` only appends to the two input histories. -/
lemma compute_components_snd (cfg : Config) (st : State) (u : ℝ)
    (t : Option ℝ) (p : Option ℝ) (d : ℝ) :
    (compute_components cfg st u t p d).2 =
      { st with
        util_hist := st.util_hist ++ [max 0 (min 100 u)],
        temp_hist := match t with
          | some tc => st.temp_hist ++ [tc]
          | none => st.temp_hist } := rfl

lemma thetaUpdate_util_hist (cfg : Config) (st : State) (r : ℝ) (t : Option ℝ) (d : ℝ) :
    (thetaUpdateIfNeeded cfg st r t d).util_hist = st.util_hist := by
  simp only [thetaUpdateIfNeeded]
  split
  · split
    · rfl
    · split <;> rfl
  · rfl

lemma thetaUpdate_temp_hist (cfg : Config) (st : State) (r : ℝ) (t : Option ℝ) (d : ℝ) :
    (thetaUpdateIfNeeded cfg st r t d).temp_hist = st.temp_hist := by
  simp only [thetaUpdateIfNeeded]
  split
  · split
    · rfl
    · split <;> rfl
  · rfl

lemma thetaUpdate_rle_hist (cfg : Config) (st : State) (r : ℝ) (t : Option ℝ) (d : ℝ) :
    (thetaUpdateIfNeeded cfg st r t d).rle_hist = st.rle_hist := by
  simp only [thetaUpdateIfNeeded]
  split
  · split
    · rfl
    · split <;> rfl
  · rfl

lemma thetaUpdate_rle_hist_ms (cfg : Config) (st : State) (r : ℝ) (t : Option ℝ) (d : ℝ) :
    (thetaUpdateIfNeeded cfg st r t d).rle_hist_ms = st.rle_hist_ms := by
  simp only [thetaUpdateIfNeeded]
  split
  · split
    · rfl
    · split <;> rfl
  · rfl

lemma thetaUpdate_rle_hist_uni (cfg : Config) (st : State) (r : ℝ) (t : Option ℝ) (d : ℝ) :
    (thetaUpdateIfNeeded cfg st r t d).rle_hist_uni = st.rle_hist_uni := by
  simp only [thetaUpdateIfNeeded]
  split
  · split
    · rfl
    · split <;> rfl
  · rfl

lemma thetaUpdate_rolling_peak (cfg : Config) (st : State) (r : ℝ) (t : Option ℝ) (d : ℝ) :
    (thetaUpdateIfNeeded cfg st r t d).rolling_peak = st.rolling_peak := by
  simp only [thetaUpdateIfNeeded]
  split
  · split
    · rfl
    · split <;> rfl
  · rfl

lemma thetaUpdate_below_ctr (cfg : Config) (st : State) (r : ℝ) (t : Option ℝ) (d : ℝ) :
    (thetaUpdateIfNeeded cfg st r t d).below_ctr = st.below_ctr := by
  simp only [thetaUpdateIfNeeded]
  split
  · split
    · rfl
    · split <;> rfl
  · rfl

lemma thetaUpdate_buf_dt (cfg : Config) (st : State) (r : ℝ) (t : Option ℝ) (d : ℝ) :
    (thetaUpdateIfNeeded cfg st r t d).buf_dt = pushCap st.buf_dt d := by
  simp only [thetaUpdateIfNeeded]
  split
  · split
    · rfl
    · split <;> rfl
  · rfl

lemma thetaUpdate_buf_rle_sm (cfg : Config) (st : State) (r : ℝ) (t : Option ℝ) (d : ℝ) :
    (thetaUpdateIfNeeded cfg st r t d).buf_rle_sm =
      if cfg.enable_theta_clock then pushCap st.buf_rle_sm r else st.buf_rle_sm := by
  simp only [thetaUpdateIfNeeded]
  split
  · split
    · rfl
    · split <;> rfl
  · rfl

lemma thetaUpdate_buf_temp (cfg : Config) (st : State) (r : ℝ) (t : Option ℝ) (d : ℝ) :
    (thetaUpdateIfNeeded cfg st r t d).buf_temp =
      if cfg.enable_theta_clock then
        (match t with
         | some tc => pushCap st.buf_temp tc
         | none => st.buf_temp)
      else st.buf_temp := by
  simp only [thetaUpdateIfNeeded]
  split
  · split
    · rfl
    · split <;> rfl
  · rfl

lemma detectCollapse_snd_hists (cfg : Config) (st : State) (r u a : ℝ)
    (t : Option ℝ) (ts : ℝ) :
    (detectCollapse cfg st r u a t ts).2.util_hist = st.util_hist ∧
    (detectCollapse cfg st r u a t ts).2.temp_hist = st.temp_hist ∧
    (detectCollapse cfg st r u a t ts).2.rle_hist = st.rle_hist ∧
    (detectCollapse cfg st r u a t ts).2.rle_hist_ms = st.rle_hist_ms ∧
    (detectCollapse cfg st r u a t ts).2.rle_hist_uni = st.rle_hist_uni ∧
    (detectCollapse cfg st r u a t ts).2.t0_s = st.t0_s ∧
    (detectCollapse cfg st r u a t ts).2.theta_index = st.theta_index ∧
    (detectCollapse cfg st r u a t ts).2.theta_c = st.theta_c ∧
    (detectCollapse cfg st r u a t ts).2.since_theta_update_s = st.since_theta_update_s ∧
    (detectCollapse cfg st r u a t ts).2.buf_rle_sm = st.buf_rle_sm ∧
    (detectCollapse cfg st r u a t ts).2.buf_temp = st.buf_temp ∧
    (detectCollapse cfg st r u a t ts).2.buf_dt = st.buf_dt := by
  unfold detectCollapse
  split <;> exact ⟨rfl, rfl, rfl, rfl, rfl, rfl, rfl, rfl, rfl, rfl, rfl, rfl⟩

lemma smoothRLE_snd (cfg : Config) (h : List ℝ) (x : ℝ) (n : Option ℕ) :
    (smoothRLE cfg h x n).2 = h ++ [x] := rfl

lemma step_util_hist (cfg : Config) (st : State) (s : Sample) :
    (step cfg st s).2.util_hist = st.util_hist ++ [max 0 (min 100 s.util_pct)] := by
  simp only [step, computeRLE]
  rw [(detectCollapse_snd_hists _ _ _ _ _ _ _).1]
  split <;> simp [thetaUpdate_util_hist, compute_components_snd]

lemma step_temp_hist (cfg : Config) (st : State) (s : Sample) :
    (step cfg st s).2.temp_hist =
      (match s.temp_c with
       | some tc => st.temp_hist ++ [tc]
       | none => st.temp_hist) := by
  simp only [step, computeRLE]
  rw [(detectCollapse_snd_hists _ _ _ _ _ _ _).2.1]
  split <;> simp [thetaUpdate_temp_hist, compute_components_snd]

lemma step_rle_hist_len (cfg : Config) (st : State) (s : Sample) :
    (step cfg st s).2.rle_hist.length = st.rle_hist.length + 1 := by
  simp only [step, computeRLE]
  rw [(detectCollapse_snd_hists _ _ _ _ _ _ _).2.2.1]
  split <;> simp [thetaUpdate_rle_hist, compute_components_snd, smoothRLE_snd]

lemma step_rle_hist_ms_len (cfg : Config) (st : State) (s : Sample) :
    (step cfg st s).2.rle_hist_ms.length = st.rle_hist_ms.length + 1 := by
  simp only [step, computeRLE]
  rw [(detectCollapse_snd_hists _ _ _ _ _ _ _).2.2.2.1]
  split <;> simp [thetaUpdate_rle_hist_ms, compute_components_snd]

lemma step_rle_hist_uni_len (cfg : Config) (st : State) (s : Sample) :
    (step cfg st s).2.rle_hist_uni.length = st.rle_hist_uni.length + 1 := by
  simp only [step, computeRLE]
  rw [(detectCollapse_snd_hists _ _ _ _ _ _ _).2.2.2.2.1]
  split <;> simp [thetaUpdate_rle_hist_uni, compute_components_snd]

lemma step_buf_dt (cfg : Config) (st : State) (s : Sample) :
    (step cfg st s).2.buf_dt = pushCap st.buf_dt s.dt_s := by
  simp only [step, computeRLE]
  rw [(detectCollapse_snd_hists _ _ _ _ _ _ _).2.2.2.2.2.2.2.2.2.2.2]
  split <;> simp [thetaUpdate_buf_dt, compute_components_snd]

lemma step_buf_rle_sm_len_le (cfg : Config) (st : State) (s : Sample) :
    (step cfg st s).2.buf_rle_sm.length ≤ max rbLen st.buf_rle_sm.length := by
  simp only [step, computeRLE]
  rw [(detectCollapse_snd_hists _ _ _ _ _ _ _).2.2.2.2.2.2.2.2.2.1]
  dsimp only
  simp only [apply_ite State.buf_rle_sm, ite_self, thetaUpdate_buf_rle_sm,
    compute_components_snd]
  split
  · exact pushCap_length_le _ _
  · exact le_max_right _ _

lemma step_buf_temp_len_le (cfg : Config) (st : State) (s : Sample) :
    (step cfg st s).2.buf_temp.length ≤ max rbLen st.buf_temp.length := by
  simp only [step, computeRLE]
  rw [(detectCollapse_snd_hists _ _ _ _ _ _ _).2.2.2.2.2.2.2.2.2.2.1]
  dsimp only
  simp only [apply_ite State.buf_temp, ite_self, thetaUpdate_buf_temp,
    compute_components_snd]
  split
  · cases s.temp_c with
    | some tc => exact pushCap_length_le _ _
    | none => exact le_max_right _ _
  · exact le_max_right _ _

/-- With the theta clock enabled, a full score ring buffer evicts its
oldest element when the new smoothed score is pushed. -/
lemma step_buf_rle_sm_evict (cfg : Config) (st : State) (s : Sample)
    (henable : cfg.enable_theta_clock = true) (hlen : st.buf_rle_sm.length = rbLen) :
    ∃ v, (step cfg st s).2.buf_rle_sm = st.buf_rle_sm.tail ++ [v] := by
  simp only [step, computeRLE]
  rw [(detectCollapse_snd_hists _ _ _ _ _ _ _).2.2.2.2.2.2.2.2.2.1]
  simp only [apply_ite State.buf_rle_sm, ite_self, thetaUpdate_buf_rle_sm,
    compute_components_snd]
  rw [if_pos henable]
  exact ⟨_, pushCap_at_cap _ _ hlen⟩

/-- With the theta clock enabled and a temperature present, a full
temperature ring buffer evicts its oldest element when the new
temperature is pushed. -/
lemma step_buf_temp_evict (cfg : Config) (st : State) (s : Sample) (tc : ℝ)
    (henable : cfg.enable_theta_clock = true) (htc : s.temp_c = some tc)
    (hlen : st.buf_temp.length = rbLen) :
    (step cfg st s).2.buf_temp = st.buf_temp.tail ++ [tc] := by
  simp only [step, computeRLE]
  rw [(detectCollapse_snd_hists _ _ _ _ _ _ _).2.2.2.2.2.2.2.2.2.2.1]
  simp only [apply_ite State.buf_temp, ite_self, thetaUpdate_buf_temp,
    compute_components_snd]
  rw [if_pos henable, htc]
  exact pushCap_at_cap _ _ hlen

lemma runState_util_len (cfg : Config) :
    ∀ (samples : List Sample) (st : State),
      (runState cfg st samples).util_hist.length =
        st.util_hist.length + samples.length := by
  intro samples
  induction samples with
  | nil => intro st; simp [runState]
  | cons s rest ih =>
      intro st
      have h := ih (step cfg st s).2
      simp only [runState] at h ⊢
      rw [h, step_util_hist]
      simp
      omega

/-- The internal period after one step: either unchanged, or the clamped,
EMA-smoothed, ±10%-rate-limited update of `thetaReestimate`. -/
lemma thetaUpdate_t0_cases (cfg : Config) (st : State) (r : ℝ) (t : Option ℝ) (d : ℝ) :
    (thetaUpdateIfNeeded cfg st r t d).t0_s = st.t0_s ∨
    ∃ cand, (thetaUpdateIfNeeded cfg st r t d).t0_s =
      min (max ((1 - 0.2) * st.t0_s +
          0.2 * (min (max cand cfg.theta_min_s) cfg.theta_max_s))
        (st.t0_s * 0.90)) (st.t0_s * 1.10) := by
  simp only [thetaUpdateIfNeeded]
  split
  · split
    · left; rfl
    · split
      · left; rfl
      · right; exact ⟨_, rfl⟩
  · left; rfl

lemma step_t0_cases (cfg : Config) (st : State) (s : Sample) :
    (step cfg st s).2.t0_s = st.t0_s ∨
    ∃ cand, (step cfg st s).2.t0_s =
      min (max ((1 - 0.2) * st.t0_s +
          0.2 * (min (max cand cfg.theta_min_s) cfg.theta_max_s))
        (st.t0_s * 0.90)) (st.t0_s * 1.10) := by
  simp only [step, computeRLE]
  rw [(detectCollapse_snd_hists _ _ _ _ _ _ _).2.2.2.2.2.1]
  simp only [apply_ite State.t0_s, ite_self]
  exact thetaUpdate_t0_cases cfg _ _ _ _

lemma step_t0_no_update (cfg : Config) (st : State) (s : Sample)
    (h : st.since_theta_update_s + s.dt_s < cfg.theta_update_sec) :
    (step cfg st s).2.t0_s = st.t0_s := by
  simp only [step, computeRLE]
  rw [(detectCollapse_snd_hists _ _ _ _ _ _ _).2.2.2.2.2.1]
  simp only [apply_ite State.t0_s, ite_self]
  simp only [thetaUpdateIfNeeded]
  split
  · rw [if_pos]
    · rfl
    · exact h
  · rfl

lemma mkConfig_theta_min_le_max (p : Config) :
    (mkConfig p).theta_min_s ≤ (mkConfig p).theta_max_s := le_max_left _ _

lemma mkConfig_theta_min_pos (p : Config) : 0 < (mkConfig p).theta_min_s :=
  lt_of_lt_of_le (by norm_num) (le_max_left (1e-3 : ℝ) p.theta_min_s)

end StructuralLemmas

section Claims

/-- C1 (counterexample): the utilization history is *not* bounded by any
fixed capacity — after 1025 `compute_rle` calls from a fresh engine it
holds 1025 entries, exceeding even the 1024-element ring-buffer capacity,
the only configured capacity in the engine. -/
theorem c1_counterexample :
    rbLen < (runState defaultConfig initState
        (List.replicate 1025 ⟨50, some 40, some 50, 1⟩)).util_hist.length ∧
    (runState defaultConfig initState
        (List.replicate 1025 ⟨50, some 40, some 50, 1⟩)).util_hist.length = 1025 := by
  have h := runState_util_len defaultConfig
    (List.replicate 1025 ⟨50, some 40, some 50, 1⟩) initState
  rw [List.length_replicate] at h
  have h0 : initState.util_hist.length = 0 := rfl
  rw [h0, Nat.zero_add] at h
  exact ⟨by rw [h]; norm_num [rbLen], h⟩

/-- C1 (amended): per `compute_rle` call, the clock-estimator ring buffers
stay below the 1024-element capacity (with FIFO eviction of the oldest
element at capacity), while the utilization history and the three score
histories each grow by exactly one element — they are unbounded. -/
theorem c1_theorem (cfg : Config) (st : State) (s : Sample) :
    (step cfg st s).2.util_hist.length = st.util_hist.length + 1 ∧
    (step cfg st s).2.rle_hist.length = st.rle_hist.length + 1 ∧
    (step cfg st s).2.rle_hist_ms.length = st.rle_hist_ms.length + 1 ∧
    (step cfg st s).2.rle_hist_uni.length = st.rle_hist_uni.length + 1 ∧
    (step cfg st s).2.buf_rle_sm.length ≤ max rbLen st.buf_rle_sm.length ∧
    (step cfg st s).2.buf_temp.length ≤ max rbLen st.buf_temp.length ∧
    (step cfg st s).2.buf_dt.length ≤ max rbLen st.buf_dt.length ∧
    (st.buf_dt.length = rbLen →
      (step cfg st s).2.buf_dt = st.buf_dt.tail ++ [s.dt_s]) ∧
    (cfg.enable_theta_clock = true → st.buf_rle_sm.length = rbLen →
      ∃ v, (step cfg st s).2.buf_rle_sm = st.buf_rle_sm.tail ++ [v]) ∧
    (∀ tc, cfg.enable_theta_clock = true → s.temp_c = some tc →
      st.buf_temp.length = rbLen →
      (step cfg st s).2.buf_temp = st.buf_temp.tail ++ [tc]) := by
  refine ⟨?_, step_rle_hist_len cfg st s, step_rle_hist_ms_len cfg st s,
    step_rle_hist_uni_len cfg st s, step_buf_rle_sm_len_le cfg st s,
    step_buf_temp_len_le cfg st s, ?_, ?_, ?_, ?_⟩
  · rw [step_util_hist]; simp
  · rw [step_buf_dt]; exact pushCap_length_le _ _
  · intro h; rw [step_buf_dt]; exact pushCap_at_cap _ _ h
  · intro he h; exact step_buf_rle_sm_evict cfg st s he h
  · intro tc he htc h; exact step_buf_temp_evict cfg st s tc he htc h

/-- A state whose three clock-estimator ring buffers are all full. -/
def fullBufState : State :=
  { initState with
    buf_rle_sm := List.replicate 1024 0,
    buf_temp := List.replicate 1024 0,
    buf_dt := List.replicate 1024 0 }

/-- C1 (witness): the three FIFO-eviction clauses of `c1_theorem` at
concrete full ring buffers under the default configuration. -/
theorem c1_witness :
    (fullBufState.buf_dt.length = rbLen ∧
      fullBufState.buf_rle_sm.length = rbLen ∧
      fullBufState.buf_temp.length = rbLen ∧
      defaultConfig.enable_theta_clock = true) ∧
    (step defaultConfig fullBufState ⟨50, some 40, some 50, 1⟩).2.buf_dt =
      (List.replicate 1024 (0 : ℝ)).tail ++ [(1 : ℝ)] ∧
    (∃ v, (step defaultConfig fullBufState ⟨50, some 40, some 50, 1⟩).2.buf_rle_sm =
      (List.replicate 1024 (0 : ℝ)).tail ++ [v]) ∧
    (step defaultConfig fullBufState ⟨50, some 40, some 50, 1⟩).2.buf_temp =
      (List.replicate 1024 (0 : ℝ)).tail ++ [(40 : ℝ)] := by
  have hdt : fullBufState.buf_dt.length = rbLen := by
    show (List.replicate 1024 (0 : ℝ)).length = rbLen
    rw [List.length_replicate, rbLen]
  have hsm : fullBufState.buf_rle_sm.length = rbLen := by
    show (List.replicate 1024 (0 : ℝ)).length = rbLen
    rw [List.length_replicate, rbLen]
  have htp : fullBufState.buf_temp.length = rbLen := by
    show (List.replicate 1024 (0 : ℝ)).length = rbLen
    rw [List.length_replicate, rbLen]
  have hth := c1_theorem defaultConfig fullBufState ⟨50, some 40, some 50, 1⟩
  exact ⟨⟨hdt, hsm, htp, rfl⟩,
    hth.2.2.2.2.2.2.2.1 hdt,
    hth.2.2.2.2.2.2.2.2.1 rfl hsm,
    hth.2.2.2.2.2.2.2.2.2 40 rfl rfl htp⟩

/-- C4 (amended): the internal period `_t0_s` changes by at most ±10% of
its previous value per `compute_rle` call, and if it currently lies in
the configured `[theta_min_s, theta_max_s]` range it stays in that range;
the initial value 60 s is, however, not clamped to the configured range
(see `c4_counterexample`). -/
theorem c4_theorem (p : Config) (st : State) (s : Sample) :
    (0 ≤ st.t0_s →
      |(step (mkConfig p) st s).2.t0_s - st.t0_s| ≤ 0.10 * st.t0_s) ∧
    ((mkConfig p).theta_min_s ≤ st.t0_s → st.t0_s ≤ (mkConfig p).theta_max_s →
      (mkConfig p).theta_min_s ≤ (step (mkConfig p) st s).2.t0_s ∧
        (step (mkConfig p) st s).2.t0_s ≤ (mkConfig p).theta_max_s) := by
  have hmm := mkConfig_theta_min_le_max p
  have hmp := mkConfig_theta_min_pos p
  rcases step_t0_cases (mkConfig p) st s with h | ⟨cand, h⟩
  · constructor
    · intro h0
      rw [h]
      simp only [sub_self, abs_zero]
      nlinarith
    · intro h1 h2
      rw [h]
      exact ⟨h1, h2⟩
  · set m := min (max cand (mkConfig p).theta_min_s) (mkConfig p).theta_max_s with hm
    constructor
    · intro h0
      have hdu : st.t0_s * 0.90 ≤ st.t0_s * 1.10 := by nlinarith
      have hub : (step (mkConfig p) st s).2.t0_s ≤ st.t0_s * 1.10 := by
        rw [h]; exact min_le_right _ _
      have hlb : st.t0_s * 0.90 ≤ (step (mkConfig p) st s).2.t0_s := by
        rw [h]
        exact le_min (le_max_right _ _) hdu
      rw [abs_le]
      constructor <;> nlinarith
    · intro h1 h2
      have ht0 : 0 ≤ st.t0_s := le_trans (le_of_lt hmp) h1
      have hm1 : (mkConfig p).theta_min_s ≤ m :=
        le_min (le_max_right _ _) hmm
      have hm2 : m ≤ (mkConfig p).theta_max_s := min_le_right _ _
      have he1 : (mkConfig p).theta_min_s ≤
          (1 - 0.2) * st.t0_s + 0.2 * m := by nlinarith
      have he2 : (1 - 0.2) * st.t0_s + 0.2 * m ≤ (mkConfig p).theta_max_s := by
        nlinarith
      constructor
      · rw [h]
        refine le_min (le_trans he1 (le_max_left _ _)) ?_
        nlinarith
      · rw [h]
        refine le_trans (min_le_left _ _) ?_
        refine max_le he2 ?_
        nlinarith

/-- C4 (witness): both clauses of `c4_theorem` discharged at the default
configuration and initial state (T0 = 60 s, range [5, 600]). -/
theorem c4_witness :
    ((0 : ℝ) ≤ initState.t0_s ∧
      |(step (mkConfig defaultConfig) initState ⟨50, some 40, some 50, 1⟩).2.t0_s -
          initState.t0_s| ≤ 0.10 * initState.t0_s) ∧
    ((mkConfig defaultConfig).theta_min_s ≤ initState.t0_s ∧
      initState.t0_s ≤ (mkConfig defaultConfig).theta_max_s ∧
      (mkConfig defaultConfig).theta_min_s ≤
        (step (mkConfig defaultConfig) initState ⟨50, some 40, some 50, 1⟩).2.t0_s ∧
      (step (mkConfig defaultConfig) initState ⟨50, some 40, some 50, 1⟩).2.t0_s ≤
        (mkConfig defaultConfig).theta_max_s) := by
  have h1 : (0 : ℝ) ≤ initState.t0_s := by norm_num [initState]
  have h2 : (mkConfig defaultConfig).theta_min_s ≤ initState.t0_s := by
    norm_num [initState, mkConfig, defaultConfig, max_def]
  have h3 : initState.t0_s ≤ (mkConfig defaultConfig).theta_max_s := by
    norm_num [initState, mkConfig, defaultConfig, max_def]
  have hr := (c4_theorem defaultConfig initState ⟨50, some 40, some 50, 1⟩).2 h2 h3
  exact ⟨⟨h1, (c4_theorem defaultConfig initState ⟨50, some 40, some 50, 1⟩).1 h1⟩,
    h2, h3, hr.1, hr.2⟩

/-- C4 (counterexample): with `theta_min_s = 100` the engine starts (and
after the first sample still reports) an internal period of 60 s, strictly
below the configured minimum — T0 is not always inside the configured
range. -/
theorem c4_counterexample :
    (step (mkConfig { theta_min_s := 100 }) initState ⟨50, some 40, some 50, 1⟩).2.t0_s <
      (mkConfig { theta_min_s := 100 }).theta_min_s := by
  rw [step_t0_no_update]
  · norm_num [initState, mkConfig, max_def]
  · norm_num [initState, mkConfig, max_def]

end Claims

section ControlMapper

/-- Severity ladder applied to the current score in `control_decision`
(thresholds 0.2 / 0.4 / 0.6; 3 = emergency … 0 = maintain). -/
def sevCur (c : ℝ) : ℕ :=
  if c < 0.2 then 3 else if c < 0.4 then 2 else if c < 0.6 then 1 else 0

/-- Severity ladder applied to the predicted score in `control_decision`
(thresholds 0.1 / 0.3 / 0.5). -/
def sevPred (p : ℝ) : ℕ :=
  if p < 0.1 then 3 else if p < 0.3 then 2 else if p < 0.5 then 1 else 0

/-- Names of the four ordered control states, by severity. -/
def sevName : ℕ → String
  | 3 => "emergency"
  | 2 => "aggressive"
  | 1 => "moderate"
  | _ => "maintain"

end ControlMapper

section ClaimsControl

/-- C3 (counterexample): the selected state is not a function of
`min(current, predicted)` — the inputs (0.15, 0.5) and (0.5, 0.15) have
the same minimum but yield `emergency` and `aggressive` respectively. -/
theorem c3_counterexample :
    ¬ ∃ f : ℝ → String, ∀ (c : ℝ) (p : Option ℝ),
        (control_decision c p none).state = f (min c (p.getD c)) := by
  rintro ⟨f, hf⟩
  have h1 := hf 0.15 (some 0.5)
  have h2 := hf 0.5 (some 0.15)
  have e1 : (control_decision 0.15 (some 0.5) none).state = "emergency" := by
    norm_num [control_decision]
  have e2 : (control_decision 0.5 (some 0.15) none).state = "aggressive" := by
    norm_num [control_decision]
  have hmin : min (0.15 : ℝ) ((some (0.5 : ℝ)).getD 0.15) =
      min (0.5 : ℝ) ((some (0.15 : ℝ)).getD 0.5) := by
    norm_num [min_def]
  rw [e1, hmin] at h1
  rw [e2] at h2
  exact absurd (h1.trans h2.symm) (by decide)

/-- C3 (amended): `control_decision` is a pure function of its arguments
(no engine state involved); the state it selects is the more severe of
two independent threshold ladders — the current score against
(0.2, 0.4, 0.6) and the predicted score (defaulting to the current one)
against (0.1, 0.3, 0.5). -/
theorem c3_theorem (c : ℝ) (p : Option ℝ) (h : Option ℝ) :
    (control_decision c p h).state = sevName (max (sevCur c) (sevPred (p.getD c))) := by
  simp only [control_decision, sevCur, sevPred]
  by_cases h1 : c < 0.2 <;> by_cases h2 : p.getD c < 0.1 <;>
    by_cases h3 : c < 0.4 <;> by_cases h4 : p.getD c < 0.3 <;>
    by_cases h5 : c < 0.6 <;> by_cases h6 : p.getD c < 0.5 <;>
    first
      | (exfalso; linarith)
      | simp [h1, h2, h3, h4, h5, h6, sevName]

end ClaimsControl

section ClaimsTSustain

/-- The claim's formula for `t_sustain`, written from the spec's words:
the heating rate is `(T[-1] - T[-2]) / dt_s`, clamped below by `1e-3`,
with no lower clamp applied to `dt_s` itself. -/
def t_sustain_spec (temp_limit_c : ℝ) (temp_hist : List ℝ) (dt_s : ℝ) (max_t : ℝ) : ℝ :=
  if temp_hist.length < 2 then max_t
  else
    max (min ((temp_limit_c - idxLast temp_hist 0) /
      max ((idxLast temp_hist 0 - idxLast temp_hist 1) / dt_s) 1e-3) max_t) 1

/-- C7 (counterexample): for `dt_s = 1e-4` the code divides the
temperature delta by `max(dt_s, 1e-3)`, not by `dt_s`, so the claim's
formula disagrees: code gives 1.084, the claimed formula gives 1.0. -/
theorem c7_counterexample :
    compute_t_sustain 85 [-1000, -999] 1e-4 600 = 1.084 ∧
    t_sustain_spec 85 [-1000, -999] 1e-4 600 = 1 ∧
    compute_t_sustain 85 [-1000, -999] 1e-4 600 ≠
      t_sustain_spec 85 [-1000, -999] 1e-4 600 := by
  have hi0 : idxLast [(-1000 : ℝ), -999] 0 = -999 := by
    norm_num [idxLast]
  have hi1 : idxLast [(-1000 : ℝ), -999] 1 = -1000 := by
    norm_num [idxLast]
  refine ⟨?_, ?_, ?_⟩
  · rw [compute_t_sustain, if_neg (by norm_num), hi0, hi1]
    norm_num [max_def, min_def]
  · rw [t_sustain_spec, if_neg (by norm_num), hi0, hi1]
    norm_num [max_def, min_def]
  · rw [compute_t_sustain, t_sustain_spec, if_neg (by norm_num),
      if_neg (by norm_num), hi0, hi1]
    norm_num [max_def, min_def]

/-- C7 (amended): with fewer than two temperature samples `t_sustain`
equals `max_sustain_s`; otherwise the claimed clamp formula holds
provided `dt_s ≥ 1e-3` (the code additionally clamps `dt_s` below by
`1e-3` before dividing). -/
theorem c7_theorem (limit : ℝ) (hist : List ℝ) (dt max_t : ℝ) :
    (hist.length < 2 → compute_t_sustain limit hist dt max_t = max_t) ∧
    (2 ≤ hist.length → 1e-3 ≤ dt →
      compute_t_sustain limit hist dt max_t = t_sustain_spec limit hist dt max_t) := by
  constructor
  · intro h
    rw [compute_t_sustain, if_pos h]
  · intro h hdt
    rw [compute_t_sustain, t_sustain_spec, if_neg (by omega), if_neg (by omega),
      max_eq_left hdt]

/-- C7 (witness): both clauses of `c7_theorem` at concrete inputs. -/
theorem c7_witness :
    (([30] : List ℝ).length < 2 ∧ compute_t_sustain 85 [30] 1 600 = 600) ∧
    (2 ≤ ([30, 40] : List ℝ).length ∧ (1e-3 : ℝ) ≤ 1 ∧
      compute_t_sustain 85 [30, 40] 1 600 = t_sustain_spec 85 [30, 40] 1 600) :=
  ⟨⟨by norm_num, (c7_theorem 85 [30] 1 600).1 (by norm_num)⟩,
   ⟨by norm_num, by norm_num,
    (c7_theorem 85 [30, 40] 1 600).2 (by norm_num) (by norm_num)⟩⟩

end ClaimsTSustain

section CollapseLemmas

lemma detectCollapse_warm (cfg : Config) (st : State) (r u a : ℝ)
    (t : Option ℝ) (ts : ℝ) (h : st.rle_hist.length < max cfg.smooth_n 5) :
    detectCollapse cfg st r u a t ts =
      (0, { st with rolling_peak := 0, below_ctr := 0 }) := by
  unfold detectCollapse
  rw [if_pos h]

/-- During warm-up (fewer than `max(smooth_n, 5)` scores in the history
after the current append) the detector reports no collapse and resets
peak and counter. -/
lemma step_warmup (cfg : Config) (st : State) (s : Sample)
    (h : st.rle_hist.length + 1 < max cfg.smooth_n 5) :
    (step cfg st s).1.collapse = 0 ∧ (step cfg st s).1.rolling_peak = 0 ∧
    (step cfg st s).2.below_ctr = 0 ∧ (step cfg st s).2.rolling_peak = 0 := by
  simp only [step, computeRLE]
  rw [detectCollapse_warm]
  · exact ⟨rfl, rfl, rfl, rfl⟩
  · simp only [apply_ite State.rle_hist, ite_self, thetaUpdate_rle_hist,
      smoothRLE_snd, compute_components_snd]
    simp only [List.length_append, List.length_singleton]
    omega

lemma idxLast_concat (l : List ℝ) (x : ℝ) : idxLast (l ++ [x]) 0 = x := by
  unfold idxLast
  have h1 : (l ++ [x]).length - 1 - 0 = l.length := by
    simp [List.length_append]
  rw [h1, List.getD_append_right l [x] _ _ le_rfl, Nat.sub_self]
  rfl

/-- The load factor computed by `compute_components` depends only on the
configuration and the current sample. -/
lemma compute_components_a_load (cfg : Config) (st : State) (u : ℝ)
    (t : Option ℝ) (p : Option ℝ) (d : ℝ) :
    (compute_components cfg st u t p d).1.a_load = aLoadOf cfg u p := by
  simp only [compute_components, aLoadOf]
  have hne : st.util_hist ++ [max 0 (min 100 u)] ≠ [] := by simp
  rw [if_pos hne, idxLast_concat]

/-- If the load/utilization gate is false at the current sample the
hysteresis counter resets and (with a positive hysteresis threshold) the
collapse flag is 0, whatever the rest of the state holds. -/
lemma detect_gate_false (cfg : Config) (st : State) (r u a : ℝ)
    (t : Option ℝ) (ts : ℝ) (hh : 1 ≤ cfg.hysteresis_s)
    (hu : ¬ cfg.util_gate_pct < u) (ha : ¬ cfg.a_load_gate < a) :
    (detectCollapse cfg st r u a t ts).1 = 0 := by
  unfold detectCollapse
  split
  · rfl
  · dsimp only
    have hgate : ¬(((cfg.util_gate_pct < u ∨ cfg.a_load_gate < a) ∧
        (2 ≤ st.temp_hist.length ∧ t ≠ none ∧
          0.05 < idxLast st.temp_hist 0 - idxLast st.temp_hist 1)) ∧
        r < cfg.drop_frac * max (max r (st.rolling_peak * cfg.rolling_decay)) 1e-6) := by
      rintro ⟨⟨hund, -⟩, -⟩
      rcases hund with hcase | hcase
      · exact hu hcase
      · exact ha hcase
    rw [if_neg]
    rintro ⟨hflag, -⟩
    rw [if_neg hgate] at hflag
    revert hflag
    split
    · intro hflag
      exact absurd ((le_max_left _ _).trans hflag) (by norm_num)
    · intro hflag
      exact absurd (hh.trans hflag) (by norm_num)

/-- Per-sample: gate false (utilization and load both at or below their
gate thresholds) forces `collapse = 0`. -/
lemma step_collapse_zero (cfg : Config) (st : State) (s : Sample)
    (hh : 1 ≤ cfg.hysteresis_s)
    (hu : ¬ cfg.util_gate_pct < s.util_pct)
    (ha : ¬ cfg.a_load_gate < aLoadOf cfg s.util_pct s.power_w) :
    (step cfg st s).1.collapse = 0 := by
  simp only [step, computeRLE]
  rw [compute_components_a_load]
  exact detect_gate_false cfg _ _ _ _ _ _ hh hu ha

end CollapseLemmas

section ClaimsCollapse

lemma c5_aux (cfg : Config) : ∀ (samples : List Sample) (st : State),
    ListAll (fun r => r.collapse = 0 ∧ r.rolling_peak = 0)
      ((runOutputs cfg st samples).take (max cfg.smooth_n 5 - 1 - st.rle_hist.length)) ∧
    (st.rle_hist.length + samples.length ≤ max cfg.smooth_n 5 - 1 →
      st.below_ctr = 0 → st.rolling_peak = 0 →
      (runState cfg st samples).below_ctr = 0 ∧
        (runState cfg st samples).rolling_peak = 0) := by
  intro samples
  induction samples with
  | nil =>
      intro st
      constructor
      · simp [runOutputs, ListAll]
      · intro _ h2 h3
        exact ⟨h2, h3⟩
  | cons s rest ih =>
      intro st
      have hM : 5 ≤ max cfg.smooth_n 5 := le_max_right _ _
      constructor
      · by_cases hL : max cfg.smooth_n 5 - 1 ≤ st.rle_hist.length
        · rw [show max cfg.smooth_n 5 - 1 - st.rle_hist.length = 0 by omega]
          simp [ListAll]
        · have hlt : st.rle_hist.length + 1 < max cfg.smooth_n 5 := by omega
          have hw := step_warmup cfg st s hlt
          have hk : max cfg.smooth_n 5 - 1 - st.rle_hist.length =
              (max cfg.smooth_n 5 - 1 - (step cfg st s).2.rle_hist.length) + 1 := by
            rw [step_rle_hist_len]; omega
          simp only [runOutputs]
          rw [hk, List.take_succ_cons]
          exact ⟨⟨hw.1, hw.2.1⟩, (ih (step cfg st s).2).1⟩
      · intro hlen hctr hpeak
        simp only [List.length_cons] at hlen
        have hlt : st.rle_hist.length + 1 < max cfg.smooth_n 5 := by omega
        have hw := step_warmup cfg st s hlt
        simp only [runState]
        refine (ih (step cfg st s).2).2 ?_ hw.2.2.1 hw.2.2.2
        rw [step_rle_hist_len]
        omega

/-- C5: starting from a fresh engine, for the first `max(smooth_n, 5) - 1`
samples every result reports `collapse = 0` and `rolling_peak = 0`, and
while still inside that warm-up window the hysteresis counter stays 0,
regardless of the sample values. -/
theorem c5_theorem (cfg : Config) (samples : List Sample) :
    ListAll (fun r => r.collapse = 0 ∧ r.rolling_peak = 0)
      ((runOutputs cfg initState samples).take (max cfg.smooth_n 5 - 1)) ∧
    (samples.length ≤ max cfg.smooth_n 5 - 1 →
      (runState cfg initState samples).below_ctr = 0 ∧
        (runState cfg initState samples).rolling_peak = 0) := by
  have h := c5_aux cfg samples initState
  have h0 : initState.rle_hist.length = 0 := rfl
  rw [h0, Nat.sub_zero] at h
  exact ⟨h.1, fun hl => h.2 (by omega) rfl rfl⟩

/-- C5 (witness): the warm-up clause of `c5_theorem` at one concrete
sample under the default configuration. -/
theorem c5_witness :
    ([(⟨50, some 40, some 50, 1⟩ : Sample)].length ≤ max defaultConfig.smooth_n 5 - 1) ∧
    ((runState defaultConfig initState [⟨50, some 40, some 50, 1⟩]).below_ctr = 0 ∧
      (runState defaultConfig initState [⟨50, some 40, some 50, 1⟩]).rolling_peak = 0) :=
  ⟨by norm_num [defaultConfig],
   (c5_theorem defaultConfig [⟨50, some 40, some 50, 1⟩]).2 (by norm_num [defaultConfig])⟩

/-- C6: with the default gate thresholds (utilization gate 60, load gate
0.75) and a positive hysteresis threshold, any sample sequence in which
every sample has utilization below 60 and load factor below 0.75 yields
`collapse = 0` at every step, from any starting state and for any length
of sequence. -/
theorem c6_theorem (cfg : Config)
    (hgu : cfg.util_gate_pct = 60) (hga : cfg.a_load_gate = 0.75)
    (hh : 1 ≤ cfg.hysteresis_s) :
    ∀ (samples : List Sample) (st : State),
      ListAll (fun s => s.util_pct < 60 ∧ aLoadOf cfg s.util_pct s.power_w < 0.75)
        samples →
      ListAll (fun r => r.collapse = 0) (runOutputs cfg st samples) := by
  intro samples
  induction samples with
  | nil => intro st _; exact trivial
  | cons s rest ih =>
      intro st hs
      obtain ⟨⟨hu, ha⟩, hrest⟩ := hs
      refine ⟨?_, ih (step cfg st s).2 hrest⟩
      refine step_collapse_zero cfg st s hh ?_ ?_
      · rw [hgu]; exact not_lt.mpr (le_of_lt hu)
      · rw [hga]; exact not_lt.mpr (le_of_lt ha)

/-- C6 (witness): `c6_theorem` applied to the default configuration and a
concrete low-load sample. -/
theorem c6_witness :
    (defaultConfig.util_gate_pct = 60 ∧ defaultConfig.a_load_gate = 0.75 ∧
      1 ≤ defaultConfig.hysteresis_s ∧
      ((⟨50, some 40, some 50, 1⟩ : Sample).util_pct < 60 ∧
        aLoadOf defaultConfig 50 (some 50) < 0.75)) ∧
    ListAll (fun r => r.collapse = 0)
      (runOutputs defaultConfig initState [⟨50, some 40, some 50, 1⟩]) := by
  have hload : aLoadOf defaultConfig 50 (some 50) < 0.75 := by
    norm_num [aLoadOf, defaultConfig, max_def]
  exact ⟨⟨rfl, rfl, by norm_num [defaultConfig], by norm_num, hload⟩,
    c6_theorem defaultConfig rfl rfl (by norm_num [defaultConfig])
      [⟨50, some 40, some 50, 1⟩] initState ⟨⟨by norm_num, hload⟩, trivial⟩⟩

end ClaimsCollapse

section MicroScaleLemmas

lemma msf_disabled (cfg : Config) (hms : cfg.enable_micro_scale = false)
    (st : State) (pw : Option ℝ) (tc : Option ℝ) (d dth T0 : ℝ) :
    computeMicroScaleFactor cfg st pw tc d dth T0 = ⟨1, 1, 1, 1, 0, 0⟩ := by
  simp [computeMicroScaleFactor, hms]

lemma wFromFmu_one : wFromFmu 1 = 0 := by
  norm_num [wFromFmu]

lemma smoothRLE_fst_eq (cfg : Config) (h : List ℝ) (x : ℝ) (n : Option ℕ) :
    (smoothRLE cfg h x n).1 = rollingMean (h ++ [x]) (pyOrN n cfg.smooth_n) := by
  cases n with
  | none => rfl
  | some m =>
      simp only [smoothRLE, pyOrN]
      congr 1
      by_cases hm : 0 < m
      · rw [if_pos hm, if_pos (Nat.pos_iff_ne_zero.mp hm)]
      · rw [if_neg hm, if_neg fun hne => hm (Nat.pos_of_ne_zero hne)]

lemma dc2_rle_hist (cfg : Config) (st : State) (r u a : ℝ) (t : Option ℝ) (ts : ℝ) :
    (detectCollapse cfg st r u a t ts).2.rle_hist = st.rle_hist :=
  (detectCollapse_snd_hists cfg st r u a t ts).2.2.1

lemma dc2_rle_hist_ms (cfg : Config) (st : State) (r u a : ℝ) (t : Option ℝ) (ts : ℝ) :
    (detectCollapse cfg st r u a t ts).2.rle_hist_ms = st.rle_hist_ms :=
  (detectCollapse_snd_hists cfg st r u a t ts).2.2.2.1

lemma dc2_rle_hist_uni (cfg : Config) (st : State) (r u a : ℝ) (t : Option ℝ) (ts : ℝ) :
    (detectCollapse cfg st r u a t ts).2.rle_hist_uni = st.rle_hist_uni :=
  (detectCollapse_snd_hists cfg st r u a t ts).2.2.2.2.1

/-- One step with micro-scale disabled: all correction factors are 1 and
the corrected/blended outputs coincide exactly with the core outputs;
the two auxiliary histories track the core history. -/
lemma step_ms_disabled (cfg : Config) (hms : cfg.enable_micro_scale = false)
    (st : State) (s : Sample)
    (h1 : st.rle_hist_ms = st.rle_hist) (h2 : st.rle_hist_uni = st.rle_hist) :
    ((step cfg st s).1.F_mu = 1 ∧ (step cfg st s).1.F_q = 1 ∧
     (step cfg st s).1.F_s = 1 ∧ (step cfg st s).1.F_p = 1 ∧
     (step cfg st s).1.rle_raw_ms = (step cfg st s).1.rle_raw ∧
     (step cfg st s).1.rle_smoothed_ms = (step cfg st s).1.rle_smoothed ∧
     (step cfg st s).1.rle_norm_ms = (step cfg st s).1.rle_norm ∧
     (step cfg st s).1.rle_raw_uni = (step cfg st s).1.rle_raw ∧
     (step cfg st s).1.rle_smoothed_uni = (step cfg st s).1.rle_smoothed ∧
     (step cfg st s).1.rle_norm_uni = (step cfg st s).1.rle_norm) ∧
    ((step cfg st s).2.rle_hist_ms = (step cfg st s).2.rle_hist ∧
     (step cfg st s).2.rle_hist_uni = (step cfg st s).2.rle_hist) := by
  simp only [step, computeRLE, msf_disabled cfg hms, wFromFmu_one,
    smoothRLE_fst_eq, smoothRLE_snd, dc2_rle_hist, dc2_rle_hist_ms, dc2_rle_hist_uni,
    apply_ite State.rle_hist, apply_ite State.rle_hist_ms, apply_ite State.rle_hist_uni,
    ite_self, thetaUpdate_rle_hist, thetaUpdate_rle_hist_ms, thetaUpdate_rle_hist_uni,
    compute_components_snd, h1, h2, mul_one, mul_zero, sub_zero, add_zero]
  exact ⟨⟨trivial, trivial, trivial, trivial, trivial, trivial, trivial, trivial,
    trivial, trivial⟩, trivial, trivial⟩

end MicroScaleLemmas

section ClaimsMicroScale

/-- C2: with micro-scale correction disabled, every sample's result has
`F_mu = F_q = F_s = F_p = 1` and all corrected/blended score variants
exactly equal to the corresponding core values. -/
theorem c2_theorem (cfg : Config) (samples : List Sample) :
    ListAll (fun r =>
        r.F_mu = 1 ∧ r.F_q = 1 ∧ r.F_s = 1 ∧ r.F_p = 1 ∧
        r.rle_raw_ms = r.rle_raw ∧ r.rle_smoothed_ms = r.rle_smoothed ∧
        r.rle_norm_ms = r.rle_norm ∧ r.rle_raw_uni = r.rle_raw ∧
        r.rle_smoothed_uni = r.rle_smoothed ∧ r.rle_norm_uni = r.rle_norm)
      (runOutputs { cfg with enable_micro_scale := false } initState samples) := by
  suffices h : ∀ (ss : List Sample) (st : State),
      st.rle_hist_ms = st.rle_hist → st.rle_hist_uni = st.rle_hist →
      ListAll (fun r =>
          r.F_mu = 1 ∧ r.F_q = 1 ∧ r.F_s = 1 ∧ r.F_p = 1 ∧
          r.rle_raw_ms = r.rle_raw ∧ r.rle_smoothed_ms = r.rle_smoothed ∧
          r.rle_norm_ms = r.rle_norm ∧ r.rle_raw_uni = r.rle_raw ∧
          r.rle_smoothed_uni = r.rle_smoothed ∧ r.rle_norm_uni = r.rle_norm)
        (runOutputs { cfg with enable_micro_scale := false } st ss) by
    exact h samples initState rfl rfl
  intro ss
  induction ss with
  | nil => intro st _ _; exact trivial
  | cons s rest ih =>
      intro st h1 h2
      have hw := step_ms_disabled { cfg with enable_micro_scale := false } rfl st s h1 h2
      exact ⟨hw.1, ih _ hw.2.1 hw.2.2⟩

end ClaimsMicroScale

section NonInterference

/-- Agreement on every state field except the two correction-score
histories (`rle_hist_ms`, `rle_hist_uni`). -/
def CoreAgree (a b : State) : Prop :=
  a.util_hist = b.util_hist ∧ a.temp_hist = b.temp_hist ∧ a.rle_hist = b.rle_hist ∧
  a.rolling_peak = b.rolling_peak ∧ a.below_ctr = b.below_ctr ∧ a.t0_s = b.t0_s ∧
  a.theta_index = b.theta_index ∧ a.theta_c = b.theta_c ∧
  a.since_theta_update_s = b.since_theta_update_s ∧ a.buf_rle_sm = b.buf_rle_sm ∧
  a.buf_temp = b.buf_temp ∧ a.buf_dt = b.buf_dt

lemma thetaUpdate_theta_index (cfg : Config) (st : State) (r : ℝ) (t : Option ℝ) (d : ℝ) :
    (thetaUpdateIfNeeded cfg st r t d).theta_index = st.theta_index := by
  simp only [thetaUpdateIfNeeded]
  split
  · split
    · rfl
    · split <;> rfl
  · rfl

lemma thetaUpdate_theta_c (cfg : Config) (st : State) (r : ℝ) (t : Option ℝ) (d : ℝ) :
    (thetaUpdateIfNeeded cfg st r t d).theta_c = st.theta_c := by
  simp only [thetaUpdateIfNeeded]
  split
  · split
    · rfl
    · split <;> rfl
  · rfl

lemma thetaUpdate_since_val (cfg : Config) (st : State) (r : ℝ) (t : Option ℝ) (d : ℝ) :
    (thetaUpdateIfNeeded cfg st r t d).since_theta_update_s =
      if cfg.enable_theta_clock then
        (if st.since_theta_update_s + d < cfg.theta_update_sec then
          st.since_theta_update_s + d
         else 0)
      else st.since_theta_update_s := by
  simp only [thetaUpdateIfNeeded]
  split
  · split
    · rfl
    · split <;> rfl
  · rfl

lemma thetaUpdate_t0_val (cfg : Config) (st : State) (r : ℝ) (t : Option ℝ) (d : ℝ) :
    (thetaUpdateIfNeeded cfg st r t d).t0_s =
      if cfg.enable_theta_clock then
        (if st.since_theta_update_s + d < cfg.theta_update_sec then st.t0_s
         else if pushCap st.buf_dt d = [] then st.t0_s
         else thetaReestimate cfg
           { st with
             buf_rle_sm := pushCap st.buf_rle_sm r,
             buf_temp :=
               match t with
               | some tc => pushCap st.buf_temp tc
               | none => st.buf_temp,
             buf_dt := pushCap st.buf_dt d,
             since_theta_update_s := 0 })
      else st.t0_s := by
  simp only [thetaUpdateIfNeeded]
  split
  · split
    · rfl
    · split <;> rfl
  · rfl

lemma dc2_rest (cfg : Config) (st : State) (r u a : ℝ) (t : Option ℝ) (ts : ℝ) :
    (detectCollapse cfg st r u a t ts).2.util_hist = st.util_hist ∧
    (detectCollapse cfg st r u a t ts).2.temp_hist = st.temp_hist ∧
    (detectCollapse cfg st r u a t ts).2.t0_s = st.t0_s ∧
    (detectCollapse cfg st r u a t ts).2.theta_index = st.theta_index ∧
    (detectCollapse cfg st r u a t ts).2.theta_c = st.theta_c ∧
    (detectCollapse cfg st r u a t ts).2.since_theta_update_s = st.since_theta_update_s ∧
    (detectCollapse cfg st r u a t ts).2.buf_rle_sm = st.buf_rle_sm ∧
    (detectCollapse cfg st r u a t ts).2.buf_temp = st.buf_temp ∧
    (detectCollapse cfg st r u a t ts).2.buf_dt = st.buf_dt := by
  unfold detectCollapse
  split <;> exact ⟨rfl, rfl, rfl, rfl, rfl, rfl, rfl, rfl, rfl⟩

lemma dc2_util_hist (cfg : Config) (st : State) (r u a : ℝ) (t : Option ℝ) (ts : ℝ) :
    (detectCollapse cfg st r u a t ts).2.util_hist = st.util_hist :=
  (dc2_rest cfg st r u a t ts).1

lemma dc2_temp_hist (cfg : Config) (st : State) (r u a : ℝ) (t : Option ℝ) (ts : ℝ) :
    (detectCollapse cfg st r u a t ts).2.temp_hist = st.temp_hist :=
  (dc2_rest cfg st r u a t ts).2.1

lemma dc2_t0 (cfg : Config) (st : State) (r u a : ℝ) (t : Option ℝ) (ts : ℝ) :
    (detectCollapse cfg st r u a t ts).2.t0_s = st.t0_s :=
  (dc2_rest cfg st r u a t ts).2.2.1

lemma dc2_theta_index (cfg : Config) (st : State) (r u a : ℝ) (t : Option ℝ) (ts : ℝ) :
    (detectCollapse cfg st r u a t ts).2.theta_index = st.theta_index :=
  (dc2_rest cfg st r u a t ts).2.2.2.1

lemma dc2_theta_c (cfg : Config) (st : State) (r u a : ℝ) (t : Option ℝ) (ts : ℝ) :
    (detectCollapse cfg st r u a t ts).2.theta_c = st.theta_c :=
  (dc2_rest cfg st r u a t ts).2.2.2.2.1

lemma dc2_since (cfg : Config) (st : State) (r u a : ℝ) (t : Option ℝ) (ts : ℝ) :
    (detectCollapse cfg st r u a t ts).2.since_theta_update_s = st.since_theta_update_s :=
  (dc2_rest cfg st r u a t ts).2.2.2.2.2.1

lemma dc2_buf_rle_sm (cfg : Config) (st : State) (r u a : ℝ) (t : Option ℝ) (ts : ℝ) :
    (detectCollapse cfg st r u a t ts).2.buf_rle_sm = st.buf_rle_sm :=
  (dc2_rest cfg st r u a t ts).2.2.2.2.2.2.1

lemma dc2_buf_temp (cfg : Config) (st : State) (r u a : ℝ) (t : Option ℝ) (ts : ℝ) :
    (detectCollapse cfg st r u a t ts).2.buf_temp = st.buf_temp :=
  (dc2_rest cfg st r u a t ts).2.2.2.2.2.2.2.1

lemma dc2_buf_dt (cfg : Config) (st : State) (r u a : ℝ) (t : Option ℝ) (ts : ℝ) :
    (detectCollapse cfg st r u a t ts).2.buf_dt = st.buf_dt :=
  (dc2_rest cfg st r u a t ts).2.2.2.2.2.2.2.2

lemma detect_fst_val (cfg : Config) (st : State) (r u a : ℝ) (t : Option ℝ) (ts : ℝ) :
    (detectCollapse cfg st r u a t ts).1 =
      if st.rle_hist.length < max cfg.smooth_n 5 then 0
      else if
          ((if cfg.enable_theta_clock ∧ cfg.use_theta_windows ∧
              (match cfg.hysteresis_theta with | some h => h ≠ 0 ∧ 0 < h | none => False)
            then max 1 (thetaWindowToN cfg st (cfg.hysteresis_theta.getD 0) : ℤ)
            else cfg.hysteresis_s) ≤
            ((if ((cfg.util_gate_pct < u ∨ cfg.a_load_gate < a) ∧
                (2 ≤ st.temp_hist.length ∧ t ≠ none ∧
                  0.05 < idxLast st.temp_hist 0 - idxLast st.temp_hist 1)) ∧
                r < cfg.drop_frac * max (max r (st.rolling_peak * cfg.rolling_decay)) 1e-6
              then st.below_ctr + 1 else 0 : ℕ) : ℤ)) ∧
          ((ts < 60 ∨ (match t with | some tc => cfg.temp_limit_c - 5 < tc | none => False)) ∨
            0.95 < a)
        then 1 else 0 := by
  unfold detectCollapse
  split <;> rfl

lemma detect_peak_val (cfg : Config) (st : State) (r u a : ℝ) (t : Option ℝ) (ts : ℝ) :
    (detectCollapse cfg st r u a t ts).2.rolling_peak =
      if st.rle_hist.length < max cfg.smooth_n 5 then 0
      else max r (st.rolling_peak * cfg.rolling_decay) := by
  unfold detectCollapse
  split <;> rfl

lemma detect_ctr_val (cfg : Config) (st : State) (r u a : ℝ) (t : Option ℝ) (ts : ℝ) :
    (detectCollapse cfg st r u a t ts).2.below_ctr =
      if st.rle_hist.length < max cfg.smooth_n 5 then 0
      else if ((cfg.util_gate_pct < u ∨ cfg.a_load_gate < a) ∧
          (2 ≤ st.temp_hist.length ∧ t ≠ none ∧
            0.05 < idxLast st.temp_hist 0 - idxLast st.temp_hist 1)) ∧
          r < cfg.drop_frac * max (max r (st.rolling_peak * cfg.rolling_decay)) 1e-6
        then st.below_ctr + 1 else 0 := by
  unfold detectCollapse
  split <;> rfl

/-- The components of one sample do not depend on the `enable_micro_scale`
flag nor on the two correction histories (definitional). -/
lemma cc_fst_canon (cfg : Config) (bb : Bool) (f1 f2 f3 f4 f5 : List ℝ) (f6 : ℝ)
    (f7 : ℕ) (f8 f9 f10 f11 : ℝ) (f12 f13 f14 : List ℝ) (u : ℝ) (t p : Option ℝ)
    (d : ℝ) :
    (compute_components { cfg with enable_micro_scale := bb }
      ⟨f1, f2, f3, f4, f5, f6, f7, f8, f9, f10, f11, f12, f13, f14⟩ u t p d).1 =
    (compute_components cfg
      ⟨f1, f2, f3, [], [], f6, f7, f8, f9, f10, f11, f12, f13, f14⟩ u t p d).1 := rfl

lemma twn_canon (cfg : Config) (bb : Bool) (f1 f2 f3 f4 f5 : List ℝ) (f6 : ℝ)
    (f7 : ℕ) (f8 f9 f10 f11 : ℝ) (f12 f13 f14 : List ℝ) (w : ℝ) :
    thetaWindowToN { cfg with enable_micro_scale := bb }
      ⟨f1, f2, f3, f4, f5, f6, f7, f8, f9, f10, f11, f12, f13, f14⟩ w =
    thetaWindowToN cfg
      ⟨f1, f2, f3, [], [], f6, f7, f8, f9, f10, f11, f12, f13, f14⟩ w := rfl

lemma thetaReestimate_canon (cfg : Config) (bb : Bool) (f1 f2 f3 f4 f5 : List ℝ)
    (f6 : ℝ) (f7 : ℕ) (f8 f9 f10 f11 : ℝ) (f12 f13 f14 : List ℝ) :
    thetaReestimate { cfg with enable_micro_scale := bb }
      ⟨f1, f2, f3, f4, f5, f6, f7, f8, f9, f10, f11, f12, f13, f14⟩ =
    thetaReestimate cfg
      ⟨f1, f2, f3, [], [], f6, f7, f8, f9, f10, f11, f12, f13, f14⟩ := rfl

lemma smoothRLE_canon (cfg : Config) (bb : Bool) (h : List ℝ) (x : ℝ) (n : Option ℕ) :
    smoothRLE { cfg with enable_micro_scale := bb } h x n = smoothRLE cfg h x n := rfl

set_option maxHeartbeats 1600000 in
/-- One step under two configurations that differ only in the
`enable_micro_scale` flag, from two states that agree on all
non-correction fields: the collapse flags agree and the agreement is
preserved. -/
lemma step_ms_flag (cfg : Config) (b1 b2 : Bool) (a b : State) (s : Sample)
    (hab : CoreAgree a b) :
    (step { cfg with enable_micro_scale := b1 } a s).1.collapse =
      (step { cfg with enable_micro_scale := b2 } b s).1.collapse ∧
    CoreAgree (step { cfg with enable_micro_scale := b1 } a s).2
      (step { cfg with enable_micro_scale := b2 } b s).2 := by
  obtain ⟨h1, h2, h3, h4, h5, h6, h7, h8, h9, h10, h11, h12⟩ := hab
  obtain ⟨au, at1, ar, am, an, arp, abc, at0, ati, atc, asi, abr, abt, abd⟩ := a
  obtain ⟨bu, bt1, br, bm, bn, brp, bbc, bt0, bti, btc, bsi, bbr, bbt, bbd⟩ := b
  dsimp only at h1 h2 h3 h4 h5 h6 h7 h8 h9 h10 h11 h12
  subst h1 h2 h3 h4 h5 h6 h7 h8 h9 h10 h11 h12
  simp only [step, computeRLE, CoreAgree, compute_components_snd, smoothRLE_snd,
    detect_fst_val, detect_peak_val, detect_ctr_val,
    dc2_util_hist, dc2_temp_hist, dc2_rle_hist, dc2_rle_hist_ms, dc2_rle_hist_uni,
    dc2_t0, dc2_theta_index, dc2_theta_c, dc2_since,
    dc2_buf_rle_sm, dc2_buf_temp, dc2_buf_dt,
    apply_ite State.util_hist, apply_ite State.temp_hist, apply_ite State.rle_hist,
    apply_ite State.rle_hist_ms, apply_ite State.rle_hist_uni,
    apply_ite State.rolling_peak, apply_ite State.below_ctr, apply_ite State.t0_s,
    apply_ite State.theta_index, apply_ite State.theta_c,
    apply_ite State.since_theta_update_s, apply_ite State.buf_rle_sm,
    apply_ite State.buf_temp, apply_ite State.buf_dt, ite_self,
    thetaUpdate_util_hist, thetaUpdate_temp_hist, thetaUpdate_rle_hist,
    thetaUpdate_rle_hist_ms, thetaUpdate_rle_hist_uni, thetaUpdate_rolling_peak,
    thetaUpdate_below_ctr, thetaUpdate_theta_index, thetaUpdate_theta_c,
    thetaUpdate_since_val, thetaUpdate_t0_val, thetaUpdate_buf_dt,
    thetaUpdate_buf_rle_sm, thetaUpdate_buf_temp]
  simp only [cc_fst_canon, twn_canon, thetaReestimate_canon, smoothRLE_canon]
  refine ⟨?_, ?_, ?_, ?_, ?_, ?_, ?_, ?_, ?_, ?_, ?_, ?_, ?_⟩ <;> trivial

/-- C9: two engine runs over the same sample sequence whose
configurations differ only in `enable_micro_scale` produce identical
sequences of collapse flags — the correction factors never influence
anomaly detection. -/
theorem c9_theorem (cfg : Config) (samples : List Sample) :
    (runOutputs { cfg with enable_micro_scale := true } initState samples).map
        (fun r => r.collapse) =
      (runOutputs { cfg with enable_micro_scale := false } initState samples).map
        (fun r => r.collapse) := by
  suffices h : ∀ (ss : List Sample) (a b : State), CoreAgree a b →
      (runOutputs { cfg with enable_micro_scale := true } a ss).map
          (fun r => r.collapse) =
        (runOutputs { cfg with enable_micro_scale := false } b ss).map
          (fun r => r.collapse) by
    exact h samples initState initState
      ⟨rfl, rfl, rfl, rfl, rfl, rfl, rfl, rfl, rfl, rfl, rfl, rfl⟩
  intro ss
  induction ss with
  | nil => intro a b _; rfl
  | cons s rest ih =>
      intro a b hab
      have hs := step_ms_flag cfg true false a b s hab
      simp only [runOutputs, List.map_cons]
      rw [hs.1, ih _ _ hs.2]

end NonInterference

section ClaimsNormAnchors

/-- The normalization curve with the CPU anchor constants, written from
the spec's words: baseline 0.3, optimal 5.0, peak load 67%. -/
def normalizeCPUSpec (rle : ℝ) (util_pct : ℝ) : ℝ :=
  let baseline : ℝ := 0.3
  let optimal : ℝ := 5.0
  let peak_load : ℝ := 67.0
  let u := max 0 (min 100 util_pct)
  let expected :=
    if u ≤ peak_load then baseline + (optimal - baseline) * (u / peak_load)
    else optimal - (optimal - baseline * 0.5) * ((u - peak_load) / (100 - peak_load))
  max 0 (min 1 (rle / max expected 1e-6))

lemma normalize_cpu_eq (r u : ℝ) : normalize_rle r u = normalizeCPUSpec r u := by
  simp [normalize_rle, normExpected, normalizeCPUSpec]

/-- C10: every normalized score emitted by `compute_rle` (core, corrected
and blended) is computed with the CPU anchor constants (0.3, 5.0, 67%) —
`compute_rle` never selects the GPU-class anchors. -/
theorem c10_theorem (cfg : Config) (st : State) (s : Sample) :
    (step cfg st s).1.rle_norm =
      normalizeCPUSpec (step cfg st s).1.rle_smoothed s.util_pct ∧
    (step cfg st s).1.rle_norm_ms =
      normalizeCPUSpec (step cfg st s).1.rle_smoothed_ms s.util_pct ∧
    (step cfg st s).1.rle_norm_uni =
      normalizeCPUSpec (step cfg st s).1.rle_smoothed_uni s.util_pct := by
  simp only [step, computeRLE]
  exact ⟨normalize_cpu_eq _ _, normalize_cpu_eq _ _, normalize_cpu_eq _ _⟩

end ClaimsNormAnchors

section ClaimsGuards

lemma rollingStdev_nonneg (l : List ℝ) (n : ℕ) : 0 ≤ rollingStdev l n := by
  unfold rollingStdev pstdev
  split
  · exact le_refl 0
  · exact Real.sqrt_nonneg _

lemma compute_t_sustain_pos (limit : ℝ) (hist : List ℝ) (dt maxt : ℝ)
    (hmax : 0 < maxt) : 0 < compute_t_sustain limit hist dt maxt := by
  unfold compute_t_sustain
  split
  · exact hmax
  · exact lt_of_lt_of_le one_pos (le_max_right _ _)

/-- C8: every division and logarithm in the per-sample pipeline is
guarded: the stability denominator, the load-factor denominator, the
sustain time, the core score denominator, the normalization denominator,
the micro-scale SNR denominator and the generic `max(·, ε)` guards are
all strictly positive, for every well-typed input sample and state (the
default configuration satisfies both configuration-side hypotheses), and
`compute_rle` is a total function: it always returns a result record and a
new state. -/
theorem c8_theorem (cfg : Config) (st : State) (s : Sample)
    (hknee : 0 ≤ cfg.low_power_knee_w) (hmax : 0 < cfg.max_t_sustain_s) :
    (0 < (compute_components cfg st s.util_pct s.temp_c s.power_w s.dt_s).1.stability ∧
      (compute_components cfg st s.util_pct s.temp_c s.power_w s.dt_s).1.stability ≤ 1) ∧
    0 < max cfg.rated_power_w 1e-6 ∧
    0 < (compute_components cfg st s.util_pct s.temp_c s.power_w s.dt_s).1.t_sustain ∧
    0 < max (compute_components cfg st s.util_pct s.temp_c s.power_w s.dt_s).1.a_load 1e-6 *
        (1 + 1 / max (compute_components cfg st s.util_pct s.temp_c s.power_w s.dt_s).1.t_sustain 1e-6) ∧
    0 < max (normExpected "cpu" s.util_pct) 1e-6 ∧
    0 < max (s.power_w.getD 0) 1e-6 + cfg.low_power_knee_w ∧
    (∀ sigma : ℝ, 0 < 1 + (cfg.sensor_temp_lsb_c / max sigma 1e-6) ^ 2) ∧
    (∀ gmm : ℝ, 0 < max gmm 1e-30) ∧
    (∀ tt : ℝ, 0 < max tt 1e-6) ∧
    (∀ dd : ℝ, 0 < max dd 1e-3) ∧
    ∃ (r : Result) (st' : State), step cfg st s = (r, st') := by
  have hstab : ∀ (l : List ℝ) (n : ℕ), (0 : ℝ) < 1 + rollingStdev l n := by
    intro l n
    have := rollingStdev_nonneg l n
    linarith
  refine ⟨⟨?_, ?_⟩, ?_, ?_, ?_, ?_, ?_, ?_, ?_, ?_, ?_, ?_⟩
  · simp only [compute_components]
    exact div_pos one_pos (hstab _ _)
  · simp only [compute_components]
    rw [div_le_one (hstab _ _)]
    have := rollingStdev_nonneg
      ((compute_components cfg st s.util_pct s.temp_c s.power_w s.dt_s).2).util_hist 5
    have h0 := rollingStdev_nonneg (st.util_hist ++ [max 0 (min 100 s.util_pct)])
      (if cfg.enable_theta_clock ∧ cfg.use_theta_windows ∧ 0 < cfg.stability_window_theta
       then thetaWindowToN cfg st cfg.stability_window_theta else 5)
    linarith
  · exact lt_of_lt_of_le (by norm_num) (le_max_right _ _)
  · simp only [compute_components]
    exact compute_t_sustain_pos _ _ _ _ hmax
  · have h1 : (0:ℝ) < max (compute_components cfg st s.util_pct s.temp_c s.power_w
        s.dt_s).1.a_load 1e-6 := lt_of_lt_of_le (by norm_num) (le_max_right _ _)
    have h2 : (0:ℝ) < max (compute_components cfg st s.util_pct s.temp_c s.power_w
        s.dt_s).1.t_sustain 1e-6 := lt_of_lt_of_le (by norm_num) (le_max_right _ _)
    have h3 : (0:ℝ) < 1 / max (compute_components cfg st s.util_pct s.temp_c s.power_w
        s.dt_s).1.t_sustain 1e-6 := div_pos one_pos h2
    exact mul_pos h1 (by linarith)
  · exact lt_of_lt_of_le (by norm_num) (le_max_right _ _)
  · have h1 : (1e-6 : ℝ) ≤ max (s.power_w.getD 0) 1e-6 := le_max_right _ _
    linarith
  · intro sigma
    have h1 : (0:ℝ) ≤ (cfg.sensor_temp_lsb_c / max sigma 1e-6) ^ 2 := sq_nonneg _
    linarith
  · intro gmm
    exact lt_of_lt_of_le (by norm_num) (le_max_right _ _)
  · intro tt
    exact lt_of_lt_of_le (by norm_num) (le_max_right _ _)
  · intro dd
    exact lt_of_lt_of_le (by norm_num) (le_max_right _ _)
  · exact ⟨(step cfg st s).1, (step cfg st s).2, rfl⟩

/-- C8 (witness): `c8_theorem` at the default configuration (knee 3 W,
max sustain 600 s) with a concrete sample from a fresh state. -/
theorem c8_witness :
    ((0 : ℝ) ≤ defaultConfig.low_power_knee_w ∧
      (0 : ℝ) < defaultConfig.max_t_sustain_s) ∧
    (0 < (compute_components defaultConfig initState 50 (some 40) (some 50) 1).1.stability ∧
      (compute_components defaultConfig initState 50 (some 40) (some 50) 1).1.stability ≤ 1) := by
  have h1 : (0 : ℝ) ≤ defaultConfig.low_power_knee_w := by norm_num [defaultConfig]
  have h2 : (0 : ℝ) < defaultConfig.max_t_sustain_s := by norm_num [defaultConfig]
  exact ⟨⟨h1, h2⟩,
    (c8_theorem defaultConfig initState ⟨50, some 40, some 50, 1⟩ h1 h2).1⟩

end ClaimsGuards

end

end RLE
